import Mathlib

/-!
# Verification of the RoomieMatch listing-search core

Shallow embedding of `src/mcp-bearer-token/mcp_starter.py` (text
normalization, the `room_finder` search pipeline, and the `add_room`
boundary operation) together with the initial listing store
`src/mcp-bearer-token/rooms_database.py` (`ROOMS_DB`).

Modelling conventions:
  * Python strings are Lean `String` (a list of unicode scalar values);
    the character classes of the regexes `\s` and `\w` are modelled by
    `Char.isWhitespace` and ASCII `Char.isAlphanum`/underscore, matching
    the ASCII data the program manipulates.
  * Python `int` is `Int` (unbounded).
  * A dict field read with `.get(k, default)` whose default matters is
    modelled as an `Option` field, with the default applied at each use
    site exactly as in the source; fields the source always populates are
    plain fields.
  * The mutable module-level `ROOMS_DB` list is passed explicitly:
    `room_finder` reads a store, `add_room` returns the updated store.
  * `McpError(INVALID_PARAMS, msg)` is an `Except.error` carrying `msg`.
  * `date.today()` is an explicit `today : Nat` parameter (a day ordinal,
    as in Python's `date.toordinal`); `timedelta(days = 30)` is `+ 30`
    and `isoformat` is rendered by a Gregorian civil-date conversion.
  * `room_finder` is embedded up to the final ordered, truncated result
    list; the trailing report formatting renders exactly that list in
    order and adds no logic affecting any claim.
-/

/-! ## Text normalizer (`_cleanup_basic`, `normalize_city/area/amenity`) -/

/-- The regex class `\s` (whitespace). -/
def isWsC (c : Char) : Bool := c.isWhitespace

/-- The regex class `\w` (word character: alphanumeric or underscore). -/
def isWordC (c : Char) : Bool := c.isAlphanum || c == '_'

/-- Python `str.strip()`: drop leading and trailing whitespace. -/
def stripChars (l : List Char) : List Char :=
  ((l.dropWhile isWsC).reverse.dropWhile isWsC).reverse

/-- Python `str.lower()` (ASCII model). -/
def lowerChars (l : List Char) : List Char := l.map Char.toLower

/-- Helper for `collapseWs`: `inRun` records whether a whitespace run is
in progress (its single replacement space already emitted). -/
def collapseWsAux : Bool → List Char → List Char
  | _, [] => []
  | inRun, c :: cs =>
    if isWsC c then
      if inRun then collapseWsAux true cs else ' ' :: collapseWsAux true cs
    else c :: collapseWsAux false cs

/-- `re.sub(r"\s+", " ", t)`: collapse each maximal run of whitespace to a
single space. -/
def collapseWs (l : List Char) : List Char := collapseWsAux false l

/-- `re.sub(r"[^\w\s]", "", t)`: strip punctuation. -/
def keepWordWs (l : List Char) : List Char :=
  l.filter (fun c => isWordC c || isWsC c)

/-- `re.sub(r"_", " ", t)`: underscores become spaces. -/
def uscToSpace (l : List Char) : List Char :=
  l.map (fun c => if c == '_' then ' ' else c)

/-- `_cleanup_basic` of `mcp_starter.py` on the character list of the
input: trim + lowercase, collapse whitespace, strip punctuation, map
underscores to spaces, collapse and trim again. -/
def cleanupChars (l : List Char) : List Char :=
  if l = [] then []
  else stripChars (collapseWs (uscToSpace (keepWordWs (collapseWs (lowerChars (stripChars l))))))

/-- `_cleanup_basic` on `String`. -/
def cleanupBasic (s : String) : String :=
  (cleanupChars s.toList).asString

/-- Modelled from the spec: `CITY_SYNONYMS` comes from
`cities_and_areas.py`, which is not under `src/`. Per the spec, it is a
fixed table mapping an alternate name to the canonical city
(e.g. `Bangalore` → `Bengaluru`); canonical forms are already in cleaned
form and are not themselves keys, so unmapped input passes through. -/
def CITY_SYNONYMS : List (String × String) :=
  [("bangalore", "bengaluru"), ("blore", "bengaluru")]

/-- Modelled from the spec: `AREA_SYNONYMS` from the missing
`cities_and_areas.py`, e.g. the misspelling `Kormangala` → `Koramangala`. -/
def AREA_SYNONYMS : List (String × String) :=
  [("kormangala", "koramangala")]

/-- Python `dict.get(k, k)` over an association-list table. -/
def synLookup (table : List (String × String)) (k : String) : String :=
  match table.find? (fun p => p.1 == k) with
  | some p => p.2
  | none => k

/-- `normalize_city` of `mcp_starter.py` (argument `str | None`). -/
def normalize_city (text : Option String) : String :=
  match text with
  | none => ""
  | some s => if s = "" then "" else synLookup CITY_SYNONYMS (cleanupBasic s)

/-- `normalize_area` of `mcp_starter.py`. -/
def normalize_area (text : Option String) : String :=
  match text with
  | none => ""
  | some s => if s = "" then "" else synLookup AREA_SYNONYMS (cleanupBasic s)

/-- `normalize_amenity` of `mcp_starter.py`. -/
def normalize_amenity (a : String) : String := cleanupBasic a

/-- Python `str.strip()` on `String`. -/
def stripStr (s : String) : String := (stripChars s.toList).asString

/-- Python `str.capitalize()` (ASCII model): first character uppercased,
the rest lowercased. -/
def capitalizeStr (s : String) : String :=
  match s.toList with
  | [] => ""
  | c :: cs => (Char.toUpper c :: cs.map Char.toLower).asString

/-! ## ISO dates (`date.today()`, `timedelta(days=30)`, `isoformat()`) -/

/-- The character of a decimal digit. -/
def digitChar (d : Nat) : Char := Char.ofNat (48 + d)

/-- Decimal digits of `n`, most significant first; `fuel`-structured
recursion with `n < fuel`. -/
def decDigitsAux : Nat → Nat → List Char
  | 0, _ => []
  | fuel + 1, n =>
    if n < 10 then [digitChar n]
    else decDigitsAux fuel (n / 10) ++ [digitChar (n % 10)]

/-- Decimal rendering of a natural number (Python `str(n)` / `%d`). -/
def decDigits (n : Nat) : List Char := decDigitsAux (n + 1) n

/-- Left-pad the decimal rendering of `n` with zeros to width `w`
(Python `f"{n:0wd}"`). -/
def padNum (w : Nat) (n : Nat) : String :=
  (List.replicate (w - (decDigits n).length) '0' ++ decDigits n).asString

/-- Civil-from-days conversion: a proleptic Gregorian day ordinal (day 0 =
0001-01-01, as in Python's `date.toordinal` minus one) to (year, month,
day). -/
def civilFromOrdinal (z : Nat) : Nat × Nat × Nat :=
  let z := z + 306
  let era := z / 146097
  let doe := z % 146097
  let yoe := (doe - doe / 1460 + doe / 36524 - doe / 146096) / 365
  let y := yoe + era * 400
  let doy := doe - (365 * yoe + yoe / 4 - yoe / 100)
  let mp := (5 * doy + 2) / 153
  let d := doy - (153 * mp + 2) / 5 + 1
  let m := if mp < 10 then mp + 3 else mp - 9
  (if m ≤ 2 then y + 1 else y, m, d)

/-- `date.isoformat()` of a day ordinal: `YYYY-MM-DD`. -/
def dateIso (ordinal : Nat) : String :=
  let c := civilFromOrdinal ordinal
  padNum 4 c.1 ++ "-" ++ padNum 2 c.2.1 ++ "-" ++ padNum 2 c.2.2

/-! ## Data model (`rooms_database.py` records) -/

/-- The `location` sub-dict of a listing. -/
structure Location where
  city : String
  area : String
  pincode : String
deriving DecidableEq

/-- A listing record of `ROOMS_DB`. `rent` is optional because the search
code reads it with `r.get("rent", 10**9)` (filter) and
`x.get("rent", 0)` (sort key); all other fields are present in every
record the repository creates. -/
structure Listing where
  id : String
  location : Location
  rent : Option Int
  gender_pref : String
  amenities : List String
  description : String
  photo_url : Option String
  posted_by : String
  date_posted : String
  is_active : Bool
  expires_at : String
  spots_available : Option Int
deriving DecidableEq

/-- The initial `ROOMS_DB` of `rooms_database.py`. -/
def ROOMS_DB : List Listing :=
  [ { id := "R005",
      location := { city := "Bengaluru", area := "Marathahalli", pincode := "560037" },
      rent := some 10500, gender_pref := "Any",
      amenities := ["WiFi", "Geyser"],
      description := "Spacious single room in a 2BHK apartment. Close to IT parks.",
      photo_url := some "https://example.com/img5.jpg", posted_by := "user_hash_pqr",
      date_posted := "2025-08-01", is_active := true, expires_at := "2025-08-31",
      spots_available := some 1 },
    { id := "R006",
      location := { city := "Bengaluru", area := "Indiranagar", pincode := "560038" },
      rent := some 18000, gender_pref := "Female",
      amenities := ["WiFi", "AC", "Washing Machine", "Balcony"],
      description := "Luxurious 1BHK near the metro station. Fully furnished.",
      photo_url := some "https://example.com/img6.jpg", posted_by := "user_hash_stu",
      date_posted := "2025-08-02", is_active := true, expires_at := "2025-09-01",
      spots_available := some 1 },
    { id := "R007",
      location := { city := "Pune", area := "Hinjewadi", pincode := "411057" },
      rent := some 8500, gender_pref := "Male",
      amenities := ["WiFi", "Geyser", "Food Included"],
      description := "PG for working professionals. Food and laundry included.",
      photo_url := none, posted_by := "user_hash_vwx",
      date_posted := "2025-08-03", is_active := true, expires_at := "2025-09-02",
      spots_available := some 2 },
    { id := "R008",
      location := { city := "Mumbai", area := "Andheri East", pincode := "400099" },
      rent := some 25000, gender_pref := "Any",
      amenities := ["WiFi", "AC", "Washing Machine", "Gym", "Swimming Pool"],
      description := "Studio apartment in a modern complex with all facilities.",
      photo_url := some "https://example.com/img8.jpg", posted_by := "user_hash_yza",
      date_posted := "2025-08-04", is_active := true, expires_at := "2025-09-03",
      spots_available := some 1 },
    { id := "R009",
      location := { city := "Bengaluru", area := "Jayanagar", pincode := "560041" },
      rent := some 14000, gender_pref := "Female",
      amenities := ["WiFi", "Balcony", "Parking"],
      description := "Peaceful room in a quiet residential area. Gated society.",
      photo_url := none, posted_by := "user_hash_bcd",
      date_posted := "2025-08-06", is_active := true, expires_at := "2025-09-05",
      spots_available := some 1 },
    { id := "R010",
      location := { city := "Pune", area := "Koregaon Park", pincode := "411001" },
      rent := some 17000, gender_pref := "Any",
      amenities := ["WiFi", "AC", "Washing Machine"],
      description := "Stylish 1BHK with a large balcony. Centrally located.",
      photo_url := some "https://example.com/img10.jpg", posted_by := "user_hash_cde",
      date_posted := "2025-08-07", is_active := true, expires_at := "2025-09-06",
      spots_available := some 1 },
    { id := "R011",
      location := { city := "Hyderabad", area := "Gachibowli", pincode := "500032" },
      rent := some 11000, gender_pref := "Male",
      amenities := ["WiFi", "AC", "Food Included"],
      description := "Shared room in a high-end PG. All meals provided.",
      photo_url := some "https://example.com/img11.jpg", posted_by := "user_hash_efg",
      date_posted := "2025-08-08", is_active := true, expires_at := "2025-09-07",
      spots_available := some 2 },
    { id := "R012",
      location := { city := "Chennai", area := "Adyar", pincode := "600020" },
      rent := some 13500, gender_pref := "Female",
      amenities := ["WiFi", "Geyser", "Security"],
      description := "Independent room in a peaceful and secure neighborhood.",
      photo_url := none, posted_by := "user_hash_fgh",
      date_posted := "2025-08-09", is_active := true, expires_at := "2025-09-08",
      spots_available := some 1 },
    { id := "R013",
      location := { city := "Bengaluru", area := "Whitefield", pincode := "560066" },
      rent := some 11500, gender_pref := "Any",
      amenities := ["WiFi", "AC", "Washing Machine"],
      description := "Semi-furnished room in a 3BHK near ITPL.",
      photo_url := some "https://example.com/img13.jpg", posted_by := "user_hash_ghi",
      date_posted := "2025-08-10", is_active := true, expires_at := "2025-09-09",
      spots_available := some 1 },
    { id := "R014",
      location := { city := "Pune", area := "Baner", pincode := "411045" },
      rent := some 16500, gender_pref := "Male",
      amenities := ["WiFi", "AC", "Parking", "Gym"],
      description := "Room in a premium apartment with great amenities.",
      photo_url := some "https://example.com/img14.jpg", posted_by := "user_hash_hij",
      date_posted := "2025-08-11", is_active := true, expires_at := "2025-09-10",
      spots_available := some 1 } ]

/-! ## Search (`room_finder`) -/

/-- The parameters of `room_finder` (absent optional arguments are
`none`; `limit` defaults to 10 and is range-checked 1–50 by the tool
schema). -/
structure SearchReq where
  city : Option String := none
  area : Option String := none
  pincode : Option String := none
  max_rent : Option Int := none
  gender_pref : Option String := none
  amenities : Option (List String) := none
  limit : Nat := 10

/-- An `McpError(ErrorData(code=INVALID_PARAMS, message=...))`. -/
inductive McpErr where
  | invalidParams (message : String)
deriving DecidableEq

/-- Python truthiness of an optional string (`None` and `""` are falsy). -/
def strFalsy : Option String → Bool
  | none => true
  | some s => s == ""

/-- Python truthiness of an optional int (`None` and `0` are falsy). -/
def intFalsy : Option Int → Bool
  | none => true
  | some v => v == 0

/-- `city_n = normalize_city(city) if city else ""` (`normalize_city`
itself already sends falsy input to `""`). -/
def cityN (q : SearchReq) : String :=
  if strFalsy q.city then "" else normalize_city q.city

/-- `area_n = normalize_area(area) if area else ""`. -/
def areaN (q : SearchReq) : String :=
  if strFalsy q.area then "" else normalize_area q.area

/-- `pincode_n = (pincode or "").strip()`. -/
def pincodeN (q : SearchReq) : String :=
  stripStr (q.pincode.getD "")

/-- `gender_n = (gender_pref or "").strip().capitalize() if gender_pref
else None`. -/
def genderN (q : SearchReq) : Option String :=
  match q.gender_pref with
  | none => none
  | some s => if s = "" then none else some (capitalizeStr (stripStr s))

/-- `req_amenities = [normalize_amenity(a) for a in (amenities or []) if a
and normalize_amenity(a)]`. -/
def reqAmenities (q : SearchReq) : List String :=
  (q.amenities.getD []).filterMap fun a =>
    if a = "" then none
    else if normalize_amenity a = "" then none
    else some (normalize_amenity a)

/-- `if gender_n and gender_n not in {"Male", "Female", "Any"}` — the
validation of `room_finder` raises exactly when the trimmed, capitalized
gender is truthy (non-empty) and not an allowed value. -/
def genderInvalid (q : SearchReq) : Bool :=
  match genderN q with
  | none => false
  | some g => !(g == "") && !(g == "Male" || g == "Female" || g == "Any")

/-- `if max_rent is not None and r.get("rent", 10**9) > max_rent:
continue` — the rent filter of `room_finder`. -/
def rentOk (mr : Option Int) (r : Listing) : Bool :=
  match mr with
  | none => true
  | some m => !(r.rent.getD (10 ^ 9) > m)

/-- `if gender_n: ... if listing_gender != "Any" and listing_gender !=
gender_n: continue` — the gender filter (`gender_n` truthy means
non-empty). -/
def genderOk (g : Option String) (r : Listing) : Bool :=
  match g with
  | none => true
  | some g =>
    if g == "" then true
    else r.gender_pref == "Any" || r.gender_pref == g

/-- `if req_amenities: if not all(a in r_amenities for a in
req_amenities): continue` — the amenity filter. -/
def amenitiesOk (req : List String) (r : Listing) : Bool :=
  req == [] ||
  req.all fun a => (r.amenities.map normalize_amenity).contains a

/-- The per-listing test of the filtering loop of `room_finder`: the
`continue` conditions, in source order, as one conjunction. -/
def listingMatches (q : SearchReq) (r : Listing) : Bool :=
  r.is_active &&
  (cityN q == "" || cityN q == normalize_city (some r.location.city)) &&
  (areaN q == "" || areaN q == normalize_area (some r.location.area)) &&
  (pincodeN q == "" || pincodeN q == r.location.pincode) &&
  rentOk q.max_rent r &&
  genderOk (genderN q) r &&
  amenitiesOk (reqAmenities q) r

/-- The `results` list right after the filtering loop (store order). -/
def filteredList (q : SearchReq) (store : List Listing) : List Listing :=
  store.filter (listingMatches q)

/-- The sort key of `results.sort(key=lambda x: (x.get("rent", 0),
x.get("date_posted", "")))`. -/
def sortKey (r : Listing) : Int × String :=
  (r.rent.getD 0, r.date_posted)

/-- Strict lexicographic order on sort keys (Python tuple `<`). -/
def keyLtB (a b : Int × String) : Bool :=
  a.1 < b.1 || (a.1 == b.1 && a.2 < b.2)

/-- Insert `x` after every element whose key is `≤` the key of `x` —
the insertion step of a stable ascending sort. -/
def insertByKey (x : Listing) : List Listing → List Listing
  | [] => [x]
  | y :: ys =>
    if keyLtB (sortKey y) (sortKey x) then y :: insertByKey x ys
    else x :: y :: ys

/-- `results.sort(key=...)`: Python's sort is stable and ascending, and a
stable ascending sort of a list is unique, so this stable insertion sort
is its embedding. -/
def sortByKey : List Listing → List Listing
  | [] => []
  | x :: xs => insertByKey x (sortByKey xs)

/-- The final result list of a successful search: filter, stable sort,
truncate (`results[:limit]`). -/
def roomFinderOk (q : SearchReq) (store : List Listing) : List Listing :=
  (sortByKey (filteredList q store)).take q.limit

/-- `room_finder`: gender validation, then the filter/sort/truncate
pipeline. The trailing report formatting renders `roomFinderOk` in order
and is out of scope. -/
def room_finder (q : SearchReq) (store : List Listing) :
    Except McpErr (List Listing) :=
  if genderInvalid q then
    .error (.invalidParams "gender_pref must be \"Male\", \"Female\", or \"Any\"")
  else
    .ok (roomFinderOk q store)

/-! ## Add listing (`add_room`) -/

/-- The parameters of `add_room`. -/
structure AddReq where
  city : Option String := none
  area : Option String := none
  rent : Option Int := none
  gender_pref : Option String := none
  spots_available : Option Int := none
  description : Option String := none
  pincode : Option String := none
  amenities : Option (List String) := none

/-- The `missing_fields` list built by `add_room`, in source order, with
the exact names used in the prompt. -/
def missingFields (q : AddReq) : List String :=
  (if strFalsy q.city then ["city"] else []) ++
  (if strFalsy q.area then ["area"] else []) ++
  (if intFalsy q.rent then ["rent"] else []) ++
  (if strFalsy q.gender_pref then ["gender preference (Male, Female, or Any)"] else []) ++
  (if intFalsy q.spots_available then ["number of spots available"] else []) ++
  (if strFalsy q.description then ["a brief description"] else [])

/-- The slot-filling prompt returned when required fields are missing. -/
def mkPrompt (missing : List String) : String :=
  "I can help with that! To list your room, please provide the following details: **" ++
    String.intercalate ", " missing ++ "**."

/-- The numeric suffix of an id of the shape `R` + digits
(`room['id'].startswith('R') and room['id'][1:].isdigit()`). -/
def idSuffix (s : String) : Option Nat :=
  match s.toList with
  | [] => none
  | c :: rest =>
    if c = 'R' ∧ rest ≠ [] ∧ rest.all Char.isDigit then
      some (rest.foldl (fun n d => 10 * n + (d.toNat - 48)) 0)
    else none

/-- The `max_id` loop of `add_room` (starts from 0). -/
def maxId (store : List Listing) : Nat :=
  store.foldl (fun m r => match idSuffix r.id with
    | some v => max m v
    | none => m) 0

/-- `f"R{new_id_num:03d}"`. -/
def renderId (n : Nat) : String := "R" ++ padNum 3 n

/-- The record `add_room` appends once validation has passed. All the
`Option`-typed arguments are known to be truthy here. -/
def newRoom (q : AddReq) (store : List Listing) (today : Nat) : Listing :=
  { id := renderId (maxId store + 1),
    location := { city := stripStr (q.city.getD ""),
                  area := stripStr (q.area.getD ""),
                  pincode := stripStr (q.pincode.getD "") },
    rent := q.rent,
    gender_pref := capitalizeStr (stripStr (q.gender_pref.getD "")),
    amenities := q.amenities.getD [],
    description := stripStr (q.description.getD ""),
    photo_url := none,
    posted_by := "user_via_mcp",
    date_posted := dateIso today,
    is_active := true,
    expires_at := dateIso (today + 30),
    spots_available := q.spots_available }

/-- `add_room`: missing-field prompt (no mutation), then gender
validation (`McpError` on failure), then id generation and append.
Returns the updated store together with the reply text. -/
def add_room (q : AddReq) (store : List Listing) (today : Nat) :
    Except McpErr (List Listing × String) :=
  if missingFields q ≠ [] then
    .ok (store, mkPrompt (missingFields q))
  else if ¬ (capitalizeStr (stripStr (q.gender_pref.getD "")) = "Male" ∨
             capitalizeStr (stripStr (q.gender_pref.getD "")) = "Female" ∨
             capitalizeStr (stripStr (q.gender_pref.getD "")) = "Any") then
    .error (.invalidParams "gender_pref must be \"Male\", \"Female\", or \"Any\"")
  else
    .ok (store ++ [newRoom q store today],
      "✅ **Success!** Your new listing has been added with ID: `" ++
        (newRoom q store today).id ++ "`. It is now active and searchable for 30 days.")

/-! ## Lemmas about the stable sort -/

/-- The ascending order realized by the sort: rent (missing rent sorts
as 0), ties broken by lexicographic `date_posted`. -/
def keyLe (a b : Listing) : Prop :=
  a.rent.getD 0 < b.rent.getD 0 ∨
    (a.rent.getD 0 = b.rent.getD 0 ∧ a.date_posted ≤ b.date_posted)

theorem keyLe_of_keyLtB {a b : Listing} (h : keyLtB (sortKey a) (sortKey b) = true) :
    keyLe a b := by
  unfold keyLtB sortKey at h
  simp only [Bool.or_eq_true, Bool.and_eq_true, decide_eq_true_eq, beq_iff_eq] at h
  rcases h with h | ⟨h1, h2⟩
  · exact Or.inl h
  · exact Or.inr ⟨h1, le_of_lt h2⟩

theorem keyLe_of_not_keyLtB {a b : Listing} (h : keyLtB (sortKey b) (sortKey a) = false) :
    keyLe a b := by
  unfold keyLtB sortKey at h
  simp only [Bool.or_eq_false_iff, Bool.and_eq_false_iff, decide_eq_false_iff_not,
    not_lt, beq_eq_false_iff_ne, ne_eq] at h
  obtain ⟨h1, h2⟩ := h
  rcases lt_or_eq_of_le h1 with h | h
  · exact Or.inl h
  · refine Or.inr ⟨h, ?_⟩
    rcases h2 with h2 | h2
    · exact absurd h.symm h2
    · exact not_lt.mp h2

theorem keyLe_trans {a b c : Listing} (h1 : keyLe a b) (h2 : keyLe b c) : keyLe a c := by
  rcases h1 with h1 | ⟨h1, h1'⟩ <;> rcases h2 with h2 | ⟨h2, h2'⟩
  · exact Or.inl (lt_trans h1 h2)
  · exact Or.inl (h2 ▸ h1)
  · exact Or.inl (h1 ▸ h2)
  · exact Or.inr ⟨h1.trans h2, le_trans h1' h2'⟩

theorem mem_insertByKey {a x : Listing} : ∀ {l : List Listing},
    a ∈ insertByKey x l → a = x ∨ a ∈ l
  | [], h => by simpa [insertByKey] using h
  | y :: ys, h => by
    unfold insertByKey at h
    split at h
    · rcases List.mem_cons.mp h with h | h
      · exact Or.inr (h ▸ List.mem_cons_self y ys)
      · rcases mem_insertByKey h with h | h
        · exact Or.inl h
        · exact Or.inr (List.mem_cons_of_mem y h)
    · rcases List.mem_cons.mp h with h | h
      · exact Or.inl h
      · exact Or.inr h

theorem mem_sortByKey {a : Listing} : ∀ {l : List Listing}, a ∈ sortByKey l → a ∈ l
  | [], h => by simpa [sortByKey] using h
  | x :: xs, h => by
    unfold sortByKey at h
    rcases mem_insertByKey h with h | h
    · exact h ▸ List.mem_cons_self x xs
    · exact List.mem_cons_of_mem x (mem_sortByKey h)

theorem length_insertByKey (x : Listing) : ∀ l : List Listing,
    (insertByKey x l).length = l.length + 1
  | [] => rfl
  | y :: ys => by
    unfold insertByKey
    split
    · simp [length_insertByKey x ys]
    · simp

theorem length_sortByKey : ∀ l : List Listing, (sortByKey l).length = l.length
  | [] => rfl
  | x :: xs => by
    unfold sortByKey
    rw [length_insertByKey, length_sortByKey xs, List.length_cons]

theorem pairwise_insertByKey {x : Listing} : ∀ {l : List Listing},
    l.Pairwise keyLe → (insertByKey x l).Pairwise keyLe
  | [], _ => by simp [insertByKey]
  | y :: ys, h => by
    obtain ⟨hy, hys⟩ := List.pairwise_cons.mp h
    unfold insertByKey
    split
    · refine List.pairwise_cons.mpr ⟨?_, pairwise_insertByKey hys⟩
      intro z hz
      rcases mem_insertByKey hz with rfl | hz
      · exact keyLe_of_keyLtB (by assumption)
      · exact hy z hz
    · refine List.pairwise_cons.mpr ⟨?_, h⟩
      intro z hz
      have hxy : keyLe x y := keyLe_of_not_keyLtB (by simp_all)
      rcases List.mem_cons.mp hz with rfl | hz
      · exact hxy
      · exact keyLe_trans hxy (hy z hz)

theorem pairwise_sortByKey : ∀ l : List Listing, (sortByKey l).Pairwise keyLe
  | [] => List.Pairwise.nil
  | x :: xs => pairwise_insertByKey (pairwise_sortByKey xs)

theorem keyLtB_irrefl (k : Int × String) : keyLtB k k = false := by
  unfold keyLtB
  simp

/-- Stability of the insertion step: among listings with any one fixed
sort key, insertion preserves relative order. -/
theorem filter_insertByKey (x : Listing) (k : Int × String) : ∀ l : List Listing,
    (insertByKey x l).filter (fun r => sortKey r == k) =
      (x :: l).filter (fun r => sortKey r == k)
  | [] => rfl
  | y :: ys => by
    unfold insertByKey
    split
    · rename_i hlt
      by_cases hx : sortKey x = k <;> by_cases hy : sortKey y = k
      · rw [hx, hy, keyLtB_irrefl] at hlt
        simp at hlt
      all_goals simp [List.filter_cons, filter_insertByKey x k ys, hx, hy]
    · rfl

/-- Stability of the sort: among listings with any one fixed sort key,
the sorted list preserves the original relative order. -/
theorem filter_sortByKey (k : Int × String) : ∀ l : List Listing,
    (sortByKey l).filter (fun r => sortKey r == k) =
      l.filter (fun r => sortKey r == k)
  | [] => rfl
  | x :: xs => by
    unfold sortByKey
    rw [filter_insertByKey, List.filter_cons, List.filter_cons,
      filter_sortByKey k xs]

/-- Membership in the final result list implies membership in the store
and satisfaction of every filter. -/
theorem mem_roomFinderOk {q : SearchReq} {store : List Listing} {r : Listing}
    (h : r ∈ roomFinderOk q store) : r ∈ store ∧ listingMatches q r = true := by
  have h1 : r ∈ sortByKey (filteredList q store) :=
    List.take_subset q.limit _ h
  have h2 : r ∈ filteredList q store := mem_sortByKey h1
  exact ⟨List.mem_of_mem_filter h2, List.of_mem_filter h2⟩

/-! ## Sample listings for concrete test points -/

/-- A minimal active listing used as a concrete test point. -/
def plainListing : Listing :=
  { id := "L1",
    location := { city := "X", area := "Y", pincode := "000000" },
    rent := some 100, gender_pref := "Any", amenities := [],
    description := "", photo_url := none, posted_by := "",
    date_posted := "2025-01-01", is_active := true,
    expires_at := "2025-01-31", spots_available := none }

/-- An active listing whose `rent` key is absent. -/
def noRentListing : Listing := { plainListing with rent := none }

/-- An active listing with amenities `{WiFi, AC}`. -/
def wifiAcListing : Listing := { plainListing with amenities := ["WiFi", "AC"] }

/-- An active listing with explicit preference `Female`. -/
def femaleOnlyListing : Listing := { plainListing with gender_pref := "Female" }

/-! ## Helper lemmas about the filters -/

theorem listingMatches_parts {q : SearchReq} {r : Listing}
    (h : listingMatches q r = true) :
    r.is_active = true ∧ rentOk q.max_rent r = true ∧
      genderOk (genderN q) r = true ∧ amenitiesOk (reqAmenities q) r = true := by
  unfold listingMatches at h
  simp only [Bool.and_eq_true] at h
  exact ⟨h.1.1.1.1.1.1, h.1.1.2, h.1.2, h.2⟩

/-! ## Claim theorems -/

/-- **C1** (corrected). The claim asserts that a listing with no rent set
always fails the rent filter. In the code the missing rent is the
sentinel `10 ** 9`, so with `max_rent = 10 ** 9` (a legal parameter) a
listing with no rent set passes the rent filter and is returned:
`noRentListing` is included in the search results. -/
theorem rent_filter_infinite_counterexample :
    noRentListing.rent = none ∧
    rentOk (some (10 ^ 9)) noRentListing = true ∧
    noRentListing ∈ roomFinderOk { max_rent := some (10 ^ 9) } [noRentListing] := by
  refine ⟨rfl, rfl, ?_⟩
  decide

/-- **C1** (amended). For every store and every search call with
`max_rent` supplied, a listing is included only if its effective rent
(`rent`, or the sentinel `10 ** 9` when no rent is set) is at most
`max_rent`; in particular a listing with `rent = max_rent` passes the
rent filter, one with `rent = max_rent + 1` fails it, and a listing with
no rent set fails it whenever `max_rent < 10 ** 9`. -/
theorem rent_filter_correct (q : SearchReq) (store : List Listing) (r : Listing)
    (m : Int) (hm : q.max_rent = some m) (hr : r ∈ roomFinderOk q store) :
    r.rent.getD (10 ^ 9) ≤ m ∧ (∀ v, r.rent = some v → v ≤ m) ∧
      (∀ r' : Listing, r'.rent = some m → rentOk q.max_rent r' = true) ∧
      (∀ r' : Listing, r'.rent = some (m + 1) → rentOk q.max_rent r' = false) ∧
      (m < 10 ^ 9 → ∀ r' : Listing, r'.rent = none → rentOk q.max_rent r' = false) := by
  have hmatch := (mem_roomFinderOk hr).2
  have hrent := (listingMatches_parts hmatch).2.1
  rw [hm] at hrent ⊢
  unfold rentOk at hrent ⊢
  simp only [Bool.not_eq_true', decide_eq_false_iff_not, not_lt] at hrent
  refine ⟨hrent, ?_, ?_, ?_, ?_⟩
  · intro v hv
    rw [hv] at hrent
    exact hrent
  · intro r' hv
    simp [hv]
  · intro r' hv
    simp [hv]
  · intro hlt r' hv
    simp only [hv]
    norm_num at hlt ⊢
    exact hlt

theorem rent_filter_correct_witness :
    ({ max_rent := some 200 : SearchReq }.max_rent = some 200 ∧
      plainListing ∈ roomFinderOk { max_rent := some 200 } [plainListing]) ∧
    plainListing.rent.getD (10 ^ 9) ≤ 200 := by
  have h1 : ({ max_rent := some 200 : SearchReq }).max_rent = some 200 := rfl
  have h2 : plainListing ∈ roomFinderOk { max_rent := some 200 } [plainListing] := by decide
  exact ⟨⟨h1, h2⟩, (rent_filter_correct _ _ _ 200 h1 h2).1⟩

/-- **C2** (confirmed). With a non-empty amenities filter, a listing is
included only if every requested amenity that survives normalization
(per the spec, input normalizing to the empty string imposes no
constraint) is present among the listing's normalized amenities; and the
concrete subset tests: a listing with amenities `{WiFi, AC}` matches a
request for `["wifi"]` and for `["WiFi", "AC"]` but not for
`["wifi", "gym"]`. -/
theorem amenity_filter_subset :
    (∀ (q : SearchReq) (store : List Listing) (r : Listing), r ∈ roomFinderOk q store →
      ∀ a ∈ reqAmenities q, a ∈ r.amenities.map normalize_amenity) ∧
    wifiAcListing ∈ roomFinderOk { amenities := some ["wifi"] } [wifiAcListing] ∧
    wifiAcListing ∈ roomFinderOk { amenities := some ["WiFi", "AC"] } [wifiAcListing] ∧
    wifiAcListing ∉ roomFinderOk { amenities := some ["wifi", "gym"] } [wifiAcListing] := by
  refine ⟨?_, by decide, by decide, by decide⟩
  intro q store r hr a ha
  have hmatch := (mem_roomFinderOk hr).2
  have ham := (listingMatches_parts hmatch).2.2.2
  unfold amenitiesOk at ham
  simp only [Bool.or_eq_true, beq_iff_eq, List.all_eq_true] at ham
  rcases ham with ham | ham
  · rw [ham] at ha
    exact absurd ha (List.not_mem_nil a)
  · have := ham a ha
    simpa using this

theorem amenity_filter_subset_witness :
    wifiAcListing ∈ roomFinderOk { amenities := some ["wifi"] } [wifiAcListing] ∧
    "wifi" ∈ wifiAcListing.amenities.map normalize_amenity := by
  have hmem : wifiAcListing ∈ roomFinderOk { amenities := some ["wifi"] } [wifiAcListing] :=
    amenity_filter_subset.2.1
  refine ⟨hmem, amenity_filter_subset.1 _ [wifiAcListing] _ hmem "wifi" ?_⟩
  decide

/-- **C3** (confirmed). When a gender filter normalizing to one of
`Male`, `Female`, `Any` is given, a listing passes the gender predicate
iff its `gender_pref` is `"Any"` or equals the filter value exactly; an
included listing therefore has `gender_pref` equal to `"Any"` or the
filter value, a listing with `gender_pref = "Any"` matches a request for
`"Male"`, and a listing with `gender_pref = "Female"` does not. -/
theorem gender_filter_correct (q : SearchReq) (store : List Listing) (r : Listing)
    (g : String) (hg : genderN q = some g)
    (hval : g = "Male" ∨ g = "Female" ∨ g = "Any")
    (hr : r ∈ roomFinderOk q store) :
    (r.gender_pref = "Any" ∨ r.gender_pref = g) ∧
    (∀ r' : Listing, genderOk (some g) r' = true ↔
      (r'.gender_pref = "Any" ∨ r'.gender_pref = g)) ∧
    genderOk (some "Male") plainListing = true ∧
    genderOk (some "Male") femaleOnlyListing = false := by
  have hne : (g == "") = false := by
    rcases hval with h | h | h <;> simp [h]
  have hiff : ∀ r' : Listing, genderOk (some g) r' = true ↔
      (r'.gender_pref = "Any" ∨ r'.gender_pref = g) := by
    intro r'
    simp [genderOk, hne]
  have hmatch := (mem_roomFinderOk hr).2
  have hgen := (listingMatches_parts hmatch).2.2.1
  rw [hg] at hgen
  exact ⟨(hiff r).mp hgen, hiff, by decide, by decide⟩

theorem gender_filter_correct_witness :
    (genderN { gender_pref := some "male" } = some "Male" ∧
      ("Male" = "Male" ∨ "Male" = "Female" ∨ "Male" = "Any") ∧
      plainListing ∈ roomFinderOk { gender_pref := some "male" } [plainListing]) ∧
    (plainListing.gender_pref = "Any" ∨ plainListing.gender_pref = "Male") := by
  have h1 : genderN { gender_pref := some "male" } = some "Male" := by decide
  have h3 : plainListing ∈ roomFinderOk { gender_pref := some "male" } [plainListing] := by
    decide
  exact ⟨⟨h1, Or.inl rfl, h3⟩,
    (gender_filter_correct _ _ _ "Male" h1 (Or.inl rfl) h3).1⟩

/-- **C4** (confirmed). The surviving listings are ordered ascending by
rent (a listing with no rent set sorts with key 0), ties broken by
ascending lexicographic `date_posted`; the sort is stable (listings with
identical sort key retain the store's relative order), and only the
first `limit` entries after sorting are kept. -/
theorem ranking_stable_sort_truncate (q : SearchReq) (store : List Listing) :
    roomFinderOk q store = (sortByKey (filteredList q store)).take q.limit ∧
    (sortByKey (filteredList q store)).Pairwise keyLe ∧
    ∀ k : Int × String,
      (sortByKey (filteredList q store)).filter (fun r => sortKey r == k) =
        (filteredList q store).filter (fun r => sortKey r == k) :=
  ⟨rfl, pairwise_sortByKey _, fun k => filter_sortByKey k _⟩

/-! ## Monotonicity of filtering -/

/-- `bigger` has strictly-more-or-equal filter constraints than `q`:
every filter of `q` is kept unchanged, amenities may grow, and the limit
is the same. -/
def reqExtends (bigger q : SearchReq) : Prop :=
  (q.city = none ∨ bigger.city = q.city) ∧
  (q.area = none ∨ bigger.area = q.area) ∧
  (q.pincode = none ∨ bigger.pincode = q.pincode) ∧
  (q.max_rent = none ∨ bigger.max_rent = q.max_rent) ∧
  (q.gender_pref = none ∨ bigger.gender_pref = q.gender_pref) ∧
  (∀ a ∈ q.amenities.getD [], a ∈ bigger.amenities.getD []) ∧
  bigger.limit = q.limit

theorem reqAmenities_mono {q' q : SearchReq}
    (h : ∀ a ∈ q.amenities.getD [], a ∈ q'.amenities.getD []) :
    ∀ a ∈ reqAmenities q, a ∈ reqAmenities q' := by
  intro a ha
  unfold reqAmenities at ha ⊢
  obtain ⟨b, hb, heq⟩ := List.mem_filterMap.mp ha
  exact List.mem_filterMap.mpr ⟨b, h b hb, heq⟩

theorem listingMatches_mono {q' q : SearchReq} {r : Listing}
    (hext : reqExtends q' q) (h : listingMatches q' r = true) :
    listingMatches q r = true := by
  obtain ⟨hcity, harea, hpin, hrent, hgen, ham, -⟩ := hext
  unfold listingMatches at h ⊢
  simp only [Bool.and_eq_true] at h ⊢
  obtain ⟨⟨⟨⟨⟨⟨hact, hc⟩, ha⟩, hp⟩, hr⟩, hg⟩, hA⟩ := h
  refine ⟨⟨⟨⟨⟨⟨hact, ?_⟩, ?_⟩, ?_⟩, ?_⟩, ?_⟩, ?_⟩
  · rcases hcity with h0 | h0
    · simp [cityN, strFalsy, h0]
    · have : cityN q = cityN q' := by unfold cityN strFalsy normalize_city; rw [h0]
      rw [this]; exact hc
  · rcases harea with h0 | h0
    · simp [areaN, strFalsy, h0]
    · have : areaN q = areaN q' := by unfold areaN strFalsy normalize_area; rw [h0]
      rw [this]; exact ha
  · rcases hpin with h0 | h0
    · have : pincodeN q = "" := by unfold pincodeN; rw [h0]; rfl
      simp [this]
    · have : pincodeN q = pincodeN q' := by unfold pincodeN; rw [h0]
      rw [this]; exact hp
  · rcases hrent with h0 | h0
    · simp [rentOk, h0]
    · have : rentOk q.max_rent r = rentOk q'.max_rent r := by rw [h0]
      rw [this]; exact hr
  · rcases hgen with h0 | h0
    · simp [genderOk, genderN, h0]
    · have : genderN q = genderN q' := by unfold genderN; rw [h0]
      rw [this]; exact hg
  · unfold amenitiesOk at hA ⊢
    by_cases hq : reqAmenities q = []
    · simp [hq]
    · simp only [Bool.or_eq_true, beq_iff_eq, List.all_eq_true] at hA ⊢
      right
      intro a haa
      have haa' : a ∈ reqAmenities q' := reqAmenities_mono ham a haa
      rcases hA with h0 | h0
      · rw [h0] at haa'
        exact absurd haa' (List.not_mem_nil a)
      · exact h0 a haa'

/-- **C9** (confirmed). Adding filter constraints (with the limit and the
kept filters unchanged, and a valid or absent gender) never increases
the number of returned results, truncation included. -/
theorem filtering_monotone (q' q : SearchReq) (store : List Listing)
    (hext : reqExtends q' q) (hval : genderInvalid q' = false) :
    ∃ res res', room_finder q store = .ok res ∧ room_finder q' store = .ok res' ∧
      res'.length ≤ res.length := by
  have hvq : genderInvalid q = false := by
    rcases hext.2.2.2.2.1 with h0 | h0
    · simp [genderInvalid, genderN, h0]
    · have : genderInvalid q = genderInvalid q' := by
        unfold genderInvalid genderN; rw [h0]
      rw [this]; exact hval
  refine ⟨roomFinderOk q store, roomFinderOk q' store, ?_, ?_, ?_⟩
  · simp [room_finder, hvq]
  · simp [room_finder, hval]
  · unfold roomFinderOk
    rw [List.length_take, List.length_take, length_sortByKey, length_sortByKey,
      hext.2.2.2.2.2.2]
    exact min_le_min (le_refl q.limit)
      ((List.monotone_filter_right store
        (fun r h => listingMatches_mono hext h)).length_le)

theorem filtering_monotone_witness :
    (reqExtends { city := some "Pune" } { } ∧
      genderInvalid { city := some "Pune" } = false) ∧
    ∃ res res', room_finder { } ROOMS_DB = .ok res ∧
      room_finder { city := some "Pune" } ROOMS_DB = .ok res' ∧
      res'.length ≤ res.length := by
  have h1 : reqExtends { city := some "Pune" } { } := by
    refine ⟨Or.inl rfl, Or.inl rfl, Or.inl rfl, Or.inl rfl, Or.inl rfl, ?_, rfl⟩
    intro a ha
    exact absurd ha (List.not_mem_nil a)
  have h2 : genderInvalid { city := some "Pune" } = false := rfl
  exact ⟨⟨h1, h2⟩, filtering_monotone _ _ ROOMS_DB h1 h2⟩

/-! ## Claims about `add_room` -/

/-- **C5** (corrected). The claim asserts that *every* call with an
invalid supplied `gender_pref` fails with `InvalidParameter`. In
`add_room` the missing-required-fields check runs first: a call with
`gender_pref = "Other"` and (say) `city` missing returns the ordinary
slot-filling prompt, not an error. -/
theorem invalid_gender_precedence_counterexample :
    (AddReq.gender_pref { gender_pref := some "Other" } = some "Other") ∧
    capitalizeStr (stripStr "Other") = "Other" ∧
    ¬ ("Other" = "Male" ∨ "Other" = "Female" ∨ "Other" = "Any") ∧
    add_room { gender_pref := some "Other" } ROOMS_DB 0 =
      .ok (ROOMS_DB, mkPrompt
        ["city", "area", "rent", "number of spots available", "a brief description"]) := by
  refine ⟨rfl, by decide, by decide, ?_⟩
  rfl

/-- **C5** (amended). In `room_finder`, a supplied `gender_pref` whose
trimmed, capitalized form is non-empty and not one of
`{Male, Female, Any}` always raises `InvalidParameter` and no filtering
occurs, while a value normalizing to the empty string is treated as
absent (no error). In `add_room`, the gender validation runs only when
every required field is supplied (then an invalid normalized gender
raises `InvalidParameter` and the store is untouched); when required
fields are missing the call returns the slot-filling prompt with the
store unchanged, regardless of `gender_pref`. -/
theorem invalid_gender_rejected :
    (∀ (q : SearchReq) (store : List Listing) (g : String), genderN q = some g →
      g ≠ "" → ¬(g = "Male" ∨ g = "Female" ∨ g = "Any") →
      room_finder q store =
        .error (.invalidParams "gender_pref must be \"Male\", \"Female\", or \"Any\"")) ∧
    (∀ (q : SearchReq) (store : List Listing), genderN q = some "" →
      room_finder q store = .ok (roomFinderOk q store)) ∧
    (∀ (q : AddReq) (store : List Listing) (t : Nat), missingFields q = [] →
      ¬(capitalizeStr (stripStr (q.gender_pref.getD "")) = "Male" ∨
        capitalizeStr (stripStr (q.gender_pref.getD "")) = "Female" ∨
        capitalizeStr (stripStr (q.gender_pref.getD "")) = "Any") →
      add_room q store t =
        .error (.invalidParams "gender_pref must be \"Male\", \"Female\", or \"Any\"")) ∧
    (∀ (q : AddReq) (store : List Listing) (t : Nat), missingFields q ≠ [] →
      add_room q store t = .ok (store, mkPrompt (missingFields q))) := by
  refine ⟨?_, ?_, ?_, ?_⟩
  · intro q store g hg hne hbad
    have hinv : genderInvalid q = true := by
      unfold genderInvalid
      rw [hg]
      simp only [Bool.and_eq_true, Bool.not_eq_true']
      constructor
      · simpa using hne
      · simp only [Bool.or_eq_false_iff, beq_eq_false_iff_ne, ne_eq]
        push_neg at hbad
        exact ⟨⟨hbad.1, hbad.2.1⟩, hbad.2.2⟩
    simp [room_finder, hinv]
  · intro q store hg
    have hinv : genderInvalid q = false := by
      unfold genderInvalid
      rw [hg]
      simp
    simp [room_finder, hinv]
  · intro q store t hmf hbad
    unfold add_room
    rw [hmf]
    simp only [ne_eq, not_true_eq_false, if_neg, if_pos hbad]
    simp
  · intro q store t hmf
    simp [add_room, hmf]

theorem invalid_gender_rejected_witness :
    (genderN { gender_pref := some "other" } = some "Other" ∧
      "Other" ≠ "" ∧ ¬("Other" = "Male" ∨ "Other" = "Female" ∨ "Other" = "Any")) ∧
    room_finder { gender_pref := some "other" } ROOMS_DB =
      .error (.invalidParams "gender_pref must be \"Male\", \"Female\", or \"Any\"") := by
  have h1 : genderN { gender_pref := some "other" } = some "Other" := by decide
  have h2 : ("Other" : String) ≠ "" := by decide
  have h3 : ¬(("Other" : String) = "Male" ∨ ("Other" : String) = "Female" ∨
      ("Other" : String) = "Any") := by decide
  exact ⟨⟨h1, h2, h3⟩, invalid_gender_rejected.1 _ ROOMS_DB "Other" h1 h2 h3⟩

/-- An `AddReq` with every required field supplied and truthy. -/
def validAdd : AddReq :=
  { city := some "Pune", area := some "Baner", rent := some 12000,
    gender_pref := some "any", spots_available := some 2,
    description := some "nice room" }

/-- The `AddReq` of the C6 counterexample: `city` absent, `rent`
supplied but zero. -/
def zeroRentAdd : AddReq :=
  { city := none, area := some "Baner", rent := some 0,
    gender_pref := some "Any", spots_available := some 1,
    description := some "d" }

/-- **C6** (corrected). The claim asserts the prompt names exactly the
*missing* required fields. The code tests Python truthiness, so a
supplied `rent = 0` is also reported: with `city` absent and
`rent = some 0` the prompt names both `city` and `rent`. -/
theorem missing_fields_exactness_counterexample :
    zeroRentAdd.rent = some 0 ∧
    add_room zeroRentAdd ROOMS_DB 0 = .ok (ROOMS_DB, mkPrompt ["city", "rent"]) ∧
    mkPrompt ["city", "rent"] ≠ mkPrompt ["city"] := by
  refine ⟨rfl, rfl, by decide⟩

/-- **C6** (amended). Whenever some required field is missing *or falsy*
(empty string, zero number), `add_room` returns the slot-filling prompt
naming exactly the falsy required fields — `"city"` is named iff `city`
is absent or empty, and similarly for the others — and performs no
mutation: the returned store is the input store. -/
theorem missing_fields_prompt (q : AddReq) (store : List Listing) (t : Nat)
    (h : missingFields q ≠ []) :
    add_room q store t = .ok (store, mkPrompt (missingFields q)) ∧
    ("city" ∈ missingFields q ↔ strFalsy q.city = true) ∧
    ("area" ∈ missingFields q ↔ strFalsy q.area = true) ∧
    ("rent" ∈ missingFields q ↔ intFalsy q.rent = true) ∧
    ("gender preference (Male, Female, or Any)" ∈ missingFields q ↔
      strFalsy q.gender_pref = true) ∧
    ("number of spots available" ∈ missingFields q ↔
      intFalsy q.spots_available = true) ∧
    ("a brief description" ∈ missingFields q ↔ strFalsy q.description = true) := by
  refine ⟨by simp [add_room, h], ?_, ?_, ?_, ?_, ?_, ?_⟩ <;>
  · unfold missingFields
    cases strFalsy q.city <;> cases strFalsy q.area <;> cases intFalsy q.rent <;>
      cases strFalsy q.gender_pref <;> cases intFalsy q.spots_available <;>
      cases strFalsy q.description <;> simp

theorem missing_fields_prompt_witness :
    missingFields zeroRentAdd ≠ [] ∧
    add_room zeroRentAdd ROOMS_DB 0 =
      .ok (ROOMS_DB, mkPrompt (missingFields zeroRentAdd)) ∧
    ("city" ∈ missingFields zeroRentAdd ↔ strFalsy zeroRentAdd.city = true) := by
  have h : missingFields zeroRentAdd ≠ [] := by decide
  exact ⟨h, (missing_fields_prompt zeroRentAdd ROOMS_DB 0 h).1,
    (missing_fields_prompt zeroRentAdd ROOMS_DB 0 h).2.1⟩

/-- **C7** (confirmed). With all required fields truthy and a valid
normalized gender preference, `add_room` appends exactly one record,
whose id is one greater than the maximum existing numeric id suffix,
zero-padded to three digits, with `is_active = true`, `date_posted` the
current date and `expires_at` 30 days later. -/
theorem add_room_success (q : AddReq) (store : List Listing) (today : Nat)
    (h1 : strFalsy q.city = false) (h2 : strFalsy q.area = false)
    (h3 : intFalsy q.rent = false) (h4 : strFalsy q.gender_pref = false)
    (h5 : intFalsy q.spots_available = false) (h6 : strFalsy q.description = false)
    (h7 : capitalizeStr (stripStr (q.gender_pref.getD "")) = "Male" ∨
          capitalizeStr (stripStr (q.gender_pref.getD "")) = "Female" ∨
          capitalizeStr (stripStr (q.gender_pref.getD "")) = "Any") :
    add_room q store today =
      .ok (store ++ [newRoom q store today],
        "✅ **Success!** Your new listing has been added with ID: `" ++
          (newRoom q store today).id ++
          "`. It is now active and searchable for 30 days.") ∧
    (newRoom q store today).id = "R" ++ padNum 3 (maxId store + 1) ∧
    (newRoom q store today).is_active = true ∧
    (newRoom q store today).date_posted = dateIso today ∧
    (newRoom q store today).expires_at = dateIso (today + 30) := by
  have hmf : missingFields q = [] := by
    unfold missingFields
    rw [h1, h2, h3, h4, h5, h6]
    rfl
  refine ⟨?_, rfl, rfl, rfl, rfl⟩
  unfold add_room
  rw [hmf, if_neg (by simp), if_neg (not_not_intro h7)]

theorem add_room_success_witness :
    (strFalsy (AddReq.city validAdd) = false ∧ strFalsy validAdd.area = false ∧
      intFalsy validAdd.rent = false ∧ strFalsy validAdd.gender_pref = false ∧
      intFalsy validAdd.spots_available = false ∧
      strFalsy validAdd.description = false ∧
      capitalizeStr (stripStr (validAdd.gender_pref.getD "")) = "Any") ∧
    (newRoom validAdd ROOMS_DB 738885).id = "R" ++ padNum 3 (maxId ROOMS_DB + 1) ∧
    (newRoom validAdd ROOMS_DB 738885).date_posted = dateIso 738885 ∧
    (newRoom validAdd ROOMS_DB 738885).expires_at = dateIso (738885 + 30) := by
  have h := add_room_success validAdd ROOMS_DB 738885 rfl rfl rfl rfl rfl rfl
    (Or.inr (Or.inr (by decide)))
  exact ⟨⟨rfl, rfl, rfl, rfl, rfl, rfl, by decide⟩, h.2.1, h.2.2.2.1, h.2.2.2.2⟩

/-! ## Store invariants (C8): id parsing round-trip and `maxId` bound -/

theorem digitChar_isDigit {d : Nat} (h : d < 10) : (digitChar d).isDigit = true := by
  interval_cases d <;> decide

theorem digitChar_toNat {d : Nat} (h : d < 10) : (digitChar d).toNat = 48 + d := by
  interval_cases d <;> decide

/-- The decimal parser used by `idSuffix`. -/
def parseDigits (acc : Nat) (l : List Char) : Nat :=
  l.foldl (fun n d => 10 * n + (d.toNat - 48)) acc

theorem decDigitsAux_spec : ∀ (fuel n : Nat), n < fuel →
    (decDigitsAux fuel n).all Char.isDigit = true ∧
    (∀ acc, parseDigits acc (decDigitsAux fuel n) =
      acc * 10 ^ (decDigitsAux fuel n).length + n) ∧
    decDigitsAux fuel n ≠ []
  | 0, n, h => absurd h (Nat.not_lt_zero n)
  | fuel + 1, n, h => by
    unfold decDigitsAux
    by_cases h10 : n < 10
    · rw [if_pos h10]
      refine ⟨by simp [digitChar_isDigit h10], ?_, by simp⟩
      intro acc
      simp [parseDigits, digitChar_toNat h10, Nat.mul_comm]
    · rw [if_neg h10]
      have hn10 : n / 10 < fuel := by
        have : n / 10 < n := Nat.div_lt_self (by omega) (by omega)
        omega
      obtain ⟨hall, hfold, hne⟩ := decDigitsAux_spec fuel (n / 10) hn10
      have hd : n % 10 < 10 := Nat.mod_lt n (by omega)
      refine ⟨?_, ?_, by simp⟩
      · simp only [List.all_append, Bool.and_eq_true, List.all_cons, List.all_nil,
          Bool.and_true]
        exact ⟨hall, digitChar_isDigit hd⟩
      · intro acc
        unfold parseDigits at hfold ⊢
        rw [List.foldl_append, hfold acc]
        simp only [List.foldl_cons, List.foldl_nil, List.length_append,
          List.length_cons, List.length_nil]
        rw [digitChar_toNat hd]
        have : 48 + n % 10 - 48 = n % 10 := by omega
        rw [this, Nat.pow_succ]
        have := Nat.div_add_mod n 10
        ring_nf
        omega

theorem parseDigits_zeros (k : Nat) : parseDigits 0 (List.replicate k '0') = 0 := by
  induction k with
  | zero => rfl
  | succ k ih =>
    rw [List.replicate_succ]
    unfold parseDigits at ih ⊢
    simpa using ih

/-- Parsing the id rendered by `add_room` returns exactly the number it
encodes. -/
theorem idSuffix_renderId (n : Nat) : idSuffix (renderId n) = some n := by
  obtain ⟨hall, hfold, hne⟩ := decDigitsAux_spec (n + 1) n (Nat.lt_succ_self n)
  have htl : (renderId n).toList =
      'R' :: (List.replicate (3 - (decDigits n).length) '0' ++ decDigits n) := by
    unfold renderId padNum
    show (String.mk _ ++ String.mk _).data = _
    simp [String.instAppend, String.append]
  unfold idSuffix
  rw [htl]
  have hrest : (List.replicate (3 - (decDigits n).length) '0' ++ decDigits n) ≠ [] := by
    simp only [ne_eq, List.append_eq_nil]
    rintro ⟨-, h2⟩
    exact hne h2
  have hdig : (List.replicate (3 - (decDigits n).length) '0' ++ decDigits n).all
      Char.isDigit = true := by
    simp only [List.all_append, Bool.and_eq_true]
    exact ⟨by simp [List.all_eq_true], hall⟩
  show (if 'R' = 'R' ∧
      (List.replicate (3 - (decDigits n).length) '0' ++ decDigits n) ≠ [] ∧
      (List.replicate (3 - (decDigits n).length) '0' ++ decDigits n).all
        Char.isDigit = true then
      some ((List.replicate (3 - (decDigits n).length) '0' ++ decDigits n).foldl
        (fun n d => 10 * n + (d.toNat - 48)) 0)
    else none) = some n
  rw [if_pos ⟨rfl, hrest, hdig⟩]
  have : (List.replicate (3 - (decDigits n).length) '0' ++ decDigits n).foldl
      (fun n d => 10 * n + (d.toNat - 48)) 0 = n := by
    rw [List.foldl_append]
    have h0 : (List.replicate (3 - (decDigits n).length) '0').foldl
        (fun n d => 10 * n + (d.toNat - 48)) 0 = 0 := parseDigits_zeros _
    rw [h0]
    have := hfold 0
    unfold parseDigits at this
    simpa using this
  rw [this]

/-- Every parsed id suffix in the store is bounded by `maxId`. -/
theorem le_maxId_foldl : ∀ (store : List Listing) (acc : Nat),
    acc ≤ store.foldl (fun m r => match idSuffix r.id with
      | some v => max m v
      | none => m) acc ∧
    ∀ r ∈ store, ∀ v, idSuffix r.id = some v →
      v ≤ store.foldl (fun m r => match idSuffix r.id with
        | some v => max m v
        | none => m) acc
  | [], acc => ⟨le_refl acc, by simp⟩
  | r :: rest, acc => by
    rw [List.foldl_cons]
    obtain ⟨ih1, ih2⟩ := le_maxId_foldl rest
      (match idSuffix r.id with | some v => max acc v | none => acc)
    constructor
    · refine le_trans ?_ ih1
      cases idSuffix r.id <;> simp
    · intro r' hr' v hv
      rcases List.mem_cons.mp hr' with rfl | hr'
      · refine le_trans ?_ ih1
        rw [hv]
        simp
      · exact ih2 r' hr' v hv

theorem idSuffix_le_maxId {store : List Listing} {r : Listing} {v : Nat}
    (hr : r ∈ store) (hv : idSuffix r.id = some v) : v ≤ maxId store :=
  (le_maxId_foldl store 0).2 r hr v hv

/-- `id` values are unique within the store. -/
def idsNodup (store : List Listing) : Prop := (store.map Listing.id).Nodup

/-- Every listing's `gender_pref` is an allowed value. -/
def gendersValid (store : List Listing) : Prop :=
  ∀ r ∈ store, r.gender_pref = "Male" ∨ r.gender_pref = "Female" ∨
    r.gender_pref = "Any"

/-- Every listing's rent (when set) is positive. -/
def rentsPositive (store : List Listing) : Prop :=
  ∀ r ∈ store, ∀ v : Int, r.rent = some v → 0 < v

instance (store : List Listing) : Decidable (idsNodup store) := by
  unfold idsNodup; infer_instance

instance (store : List Listing) : Decidable (gendersValid store) := by
  unfold gendersValid; infer_instance

instance (store : List Listing) : Decidable (rentsPositive store) := by
  unfold rentsPositive; infer_instance

theorem newRoom_id_fresh (q : AddReq) (store : List Listing) (t : Nat) :
    (newRoom q store t).id ∉ store.map Listing.id := by
  intro hmem
  obtain ⟨r, hr, hid⟩ := List.mem_map.mp hmem
  have : idSuffix r.id = some (maxId store + 1) := by
    rw [hid]
    exact idSuffix_renderId (maxId store + 1)
  have := idSuffix_le_maxId hr this
  omega

/-- The store resulting from a successful `add_room`. -/
def addRoomStore (q : AddReq) (store : List Listing) (t : Nat) :
    Option (List Listing) :=
  (add_room q store t).toOption.map Prod.fst

/-- The `AddReq` of the C8 counterexample: all required fields truthy but
a negative rent. -/
def negRentAdd : AddReq :=
  { city := some "Pune", area := some "Baner", rent := some (-1),
    gender_pref := some "Any", spots_available := some 1,
    description := some "d" }

/-- **C8** (corrected). The claim asserts `rent > 0` is preserved by
every `add_room`. The validation only rejects `rent` absent or zero
(Python falsiness), so a negative rent is accepted and appended: adding
`rent = -1` to the initial store yields a store violating the
invariant. -/
theorem rent_invariant_counterexample :
    rentsPositive ROOMS_DB ∧
    negRentAdd.rent = some (-1) ∧
    addRoomStore negRentAdd ROOMS_DB 0 =
      some (ROOMS_DB ++ [newRoom negRentAdd ROOMS_DB 0]) ∧
    ¬ rentsPositive (ROOMS_DB ++ [newRoom negRentAdd ROOMS_DB 0]) := by
  refine ⟨by decide, rfl, rfl, ?_⟩
  intro h
  have hmem : newRoom negRentAdd ROOMS_DB 0 ∈
      ROOMS_DB ++ [newRoom negRentAdd ROOMS_DB 0] := by
    simp
  have := h _ hmem (-1) rfl
  omega

/-- **C8** (amended). The invariants hold for the initial store; id
uniqueness and gender validity are preserved by every successful
`add_room` (and search never mutates the store, which in this embedding
is a pure read); rent positivity is preserved exactly when the supplied
rent is positive, since the validation admits negative rents. -/
theorem store_invariants (q : AddReq) (store : List Listing) (t : Nat)
    (store' : List Listing) (msg : String)
    (h : add_room q store t = .ok (store', msg)) :
    (idsNodup ROOMS_DB ∧ gendersValid ROOMS_DB ∧ rentsPositive ROOMS_DB) ∧
    (idsNodup store → idsNodup store') ∧
    (gendersValid store → gendersValid store') ∧
    (rentsPositive store → (∀ v : Int, q.rent = some v → 0 < v) →
      rentsPositive store') := by
  refine ⟨⟨by decide, by decide, by decide⟩, ?_⟩
  unfold add_room at h
  split at h
  · obtain ⟨rfl, -⟩ := Prod.mk.injEq .. ▸ (Except.ok.injEq .. ▸ h)
    exact ⟨fun hh => hh, fun hh => hh, fun hh _ => hh⟩
  · split at h
    · exact absurd h (by simp)
    · rename_i hmf hgender
      obtain ⟨rfl, -⟩ := Prod.mk.injEq .. ▸ (Except.ok.injEq .. ▸ h)
      push_neg at hgender
      refine ⟨?_, ?_, ?_⟩
      · intro hnd
        unfold idsNodup at hnd ⊢
        rw [List.map_append]
        simp only [List.map_cons, List.map_nil]
        rw [List.nodup_append]
        refine ⟨hnd, List.nodup_singleton _, ?_⟩
        intro a ha hb
        have : a = (newRoom q store t).id := by simpa using hb
        rw [this] at ha
        exact newRoom_id_fresh q store t ha
      · intro hg r hr
        rcases List.mem_append.mp hr with hr | hr
        · exact hg r hr
        · have : r = newRoom q store t := by simpa using hr
          rw [this]
          exact hgender
      · intro hpos hq r hr v hv
        rcases List.mem_append.mp hr with hr | hr
        · exact hpos r hr v hv
        · have : r = newRoom q store t := by simpa using hr
          rw [this] at hv
          exact hq v hv

theorem store_invariants_witness :
    add_room validAdd ROOMS_DB 738885 =
      .ok (ROOMS_DB ++ [newRoom validAdd ROOMS_DB 738885],
        "✅ **Success!** Your new listing has been added with ID: `" ++
          (newRoom validAdd ROOMS_DB 738885).id ++
          "`. It is now active and searchable for 30 days.") ∧
    idsNodup ROOMS_DB ∧
    idsNodup (ROOMS_DB ++ [newRoom validAdd ROOMS_DB 738885]) := by
  have h : add_room validAdd ROOMS_DB 738885 =
      .ok (ROOMS_DB ++ [newRoom validAdd ROOMS_DB 738885],
        "✅ **Success!** Your new listing has been added with ID: `" ++
          (newRoom validAdd ROOMS_DB 738885).id ++
          "`. It is now active and searchable for 30 days.") := rfl
  have hinv := store_invariants validAdd ROOMS_DB 738885 _ _ h
  exact ⟨h, hinv.1.1, hinv.2.1 hinv.1.1⟩

/-! ## Idempotence of normalization (C10) -/

theorem toNat_ofNat_valid {m : Nat} (h : m.isValidChar) :
    (Char.ofNat m).toNat = m := by
  rw [Char.ofNat, dif_pos h]
  rfl

theorem toLower_toLower (c : Char) : c.toLower.toLower = c.toLower := by
  unfold Char.toLower
  by_cases h : c.toNat ≥ 65 ∧ c.toNat ≤ 90
  · rw [if_pos h]
    have hv : (c.toNat + 32).isValidChar := Or.inl (by omega)
    rw [toNat_ofNat_valid hv, if_neg (by omega)]
  · rw [if_neg h, if_neg h]

theorem ws_not_word {c : Char} (h : isWsC c = true) : isWordC c = false := by
  unfold isWsC Char.isWhitespace at h
  simp only [Bool.or_eq_true, decide_eq_true_eq] at h
  rcases h with ((h | h) | h) | h <;> subst h <;> decide

theorem word_not_ws {c : Char} (h : isWordC c = true) : isWsC c = false := by
  by_cases hw : isWsC c = true
  · rw [ws_not_word hw] at h
    exact absurd h (by simp)
  · simpa using hw

/-- A character that can appear in the output of `cleanupChars`: a
non-underscore, lowercase-stable word character, or a single space. -/
def cleanChar (c : Char) : Prop :=
  (isWordC c = true ∧ c ≠ '_' ∧ c.toLower = c) ∨ c = ' '

theorem stripChars_sublist (l : List Char) : List.Sublist (stripChars l) l := by
  unfold stripChars
  have s1 : List.Sublist ((l.dropWhile isWsC).reverse.dropWhile isWsC)
      (l.dropWhile isWsC).reverse :=
    List.dropWhile_sublist isWsC
  have s2 := s1.reverse
  rw [List.reverse_reverse] at s2
  exact s2.trans (List.dropWhile_sublist isWsC)

theorem mem_stripChars {c : Char} {l : List Char} (h : c ∈ stripChars l) : c ∈ l :=
  (stripChars_sublist l).subset h

theorem head?_dropWhile_ws {l : List Char} {c : Char}
    (h : (l.dropWhile isWsC).head? = some c) : isWsC c = false := by
  have := List.head?_dropWhile_not isWsC l
  rw [h] at this
  exact this

theorem stripChars_getLast? {l : List Char} {c : Char}
    (h : (stripChars l).getLast? = some c) : isWsC c = false := by
  unfold stripChars at h
  rw [List.getLast?_reverse] at h
  exact head?_dropWhile_ws h

theorem stripChars_head? {l : List Char} {c : Char}
    (h : (stripChars l).head? = some c) : isWsC c = false := by
  unfold stripChars at h
  rw [List.head?_reverse] at h
  set Y := (l.dropWhile isWsC).reverse.dropWhile isWsC with hY
  obtain ⟨t, ht⟩ : Y <:+ (l.dropWhile isWsC).reverse := List.dropWhile_suffix isWsC
  cases hYnil : Y with
  | nil => rw [hYnil] at h; exact absurd h (by simp)
  | cons y ys =>
    have hne : Y ≠ [] := by rw [hYnil]; simp
    have : (l.dropWhile isWsC).reverse.getLast? = Y.getLast? := by
      rw [← ht, List.getLast?_append]
      cases hg : Y.getLast? with
      | none => exact absurd (List.getLast?_eq_none_iff.mp hg) hne
      | some z => rfl
    rw [← this, List.getLast?_reverse] at h
    exact head?_dropWhile_ws h

theorem dropWhile_eq_self_of_head {p : Char → Bool} {l : List Char}
    (h : ∀ c, l.head? = some c → p c = false) : l.dropWhile p = l := by
  cases l with
  | nil => rfl
  | cons c cs => simp [List.dropWhile, h c rfl]

theorem stripChars_eq_self {l : List Char}
    (hh : ∀ c, l.head? = some c → isWsC c = false)
    (hl : ∀ c, l.getLast? = some c → isWsC c = false) : stripChars l = l := by
  unfold stripChars
  rw [dropWhile_eq_self_of_head hh]
  have : l.reverse.dropWhile isWsC = l.reverse := by
    apply dropWhile_eq_self_of_head
    intro c hc
    rw [List.head?_reverse] at hc
    exact hl c hc
  rw [this, List.reverse_reverse]

theorem mem_lowerChars_fix {c : Char} {l : List Char} (h : c ∈ lowerChars l) :
    c.toLower = c := by
  obtain ⟨d, -, rfl⟩ := List.mem_map.mp h
  exact toLower_toLower d

theorem lowerChars_eq_self {l : List Char} (h : ∀ c ∈ l, c.toLower = c) :
    lowerChars l = l := by
  unfold lowerChars
  have := List.map_congr_left h
  simpa using this

/-- Adjacent characters are never both whitespace. -/
def noWsPair (a b : Char) : Prop := ¬(isWsC a = true ∧ isWsC b = true)

theorem mem_collapseWsAux {c : Char} : ∀ {l : List Char} {b : Bool},
    c ∈ collapseWsAux b l → c ∈ l ∨ c = ' '
  | [], b, h => by simp [collapseWsAux] at h
  | d :: ds, b, h => by
    unfold collapseWsAux at h
    split at h
    · split at h
      · rcases mem_collapseWsAux h with h | h
        · exact Or.inl (List.mem_cons_of_mem d h)
        · exact Or.inr h
      · rcases List.mem_cons.mp h with h | h
        · exact Or.inr h
        · rcases mem_collapseWsAux h with h | h
          · exact Or.inl (List.mem_cons_of_mem d h)
          · exact Or.inr h
    · rcases List.mem_cons.mp h with h | h
      · exact Or.inl (h ▸ List.mem_cons_self d ds)
      · rcases mem_collapseWsAux h with h | h
        · exact Or.inl (List.mem_cons_of_mem d h)
        · exact Or.inr h

theorem ws_mem_collapseWsAux {c : Char} : ∀ {l : List Char} {b : Bool},
    c ∈ collapseWsAux b l → isWsC c = true → c = ' '
  | [], b, h, _ => by simp [collapseWsAux] at h
  | d :: ds, b, h, hws => by
    unfold collapseWsAux at h
    split at h
    · split at h
      · exact ws_mem_collapseWsAux h hws
      · rcases List.mem_cons.mp h with h | h
        · exact h
        · exact ws_mem_collapseWsAux h hws
    · rename_i hdns
      rcases List.mem_cons.mp h with h | h
      · exact absurd (h ▸ hws) hdns
      · exact ws_mem_collapseWsAux h hws

theorem head?_collapseWsAux_true {c : Char} : ∀ {l : List Char},
    (collapseWsAux true l).head? = some c → isWsC c = false
  | [], h => by simp [collapseWsAux] at h
  | d :: ds, h => by
    unfold collapseWsAux at h
    split at h
    · exact head?_collapseWsAux_true h
    · rename_i hd
      rw [List.head?_cons, Option.some.injEq] at h
      rw [← h]
      simpa using hd

theorem chain'_collapseWsAux : ∀ (l : List Char) (b : Bool),
    List.Chain' noWsPair (collapseWsAux b l)
  | [], b => by simp [collapseWsAux]
  | d :: ds, b => by
    unfold collapseWsAux
    split
    · split
      · exact chain'_collapseWsAux ds true
      · refine List.chain'_cons'.mpr ⟨?_, chain'_collapseWsAux ds true⟩
        intro y hy
        rintro ⟨-, hwy⟩
        rw [head?_collapseWsAux_true hy] at hwy
        exact absurd hwy (by simp)
    · rename_i hd
      refine List.chain'_cons'.mpr ⟨?_, chain'_collapseWsAux ds false⟩
      intro y hy
      rintro ⟨hwd, -⟩
      exact hd hwd

theorem collapseWsAux_eq_self : ∀ {l : List Char},
    (∀ c ∈ l, isWsC c = true → c = ' ') → List.Chain' noWsPair l →
    collapseWsAux false l = l ∧
      ((∀ c, l.head? = some c → isWsC c = false) → collapseWsAux true l = l)
  | [], _, _ => ⟨rfl, fun _ => rfl⟩
  | d :: ds, hmem, hch => by
    obtain ⟨hhd, hch'⟩ := List.chain'_cons'.mp hch
    obtain ⟨ih1, ih2⟩ := collapseWsAux_eq_self
      (fun c hc => hmem c (List.mem_cons_of_mem d hc)) hch'
    constructor
    · unfold collapseWsAux
      split
      · rename_i hd
        rw [if_neg (by simp)]
        have hds : collapseWsAux true ds = ds := by
          apply ih2
          intro c hc
          have := hhd c hc
          unfold noWsPair at this
          by_cases hwc : isWsC c = true
          · exact absurd ⟨hd, hwc⟩ this
          · simpa using hwc
        rw [hds, hmem d (List.mem_cons_self d ds) hd]
      · rw [ih1]
    · intro hhead
      unfold collapseWsAux
      rw [if_neg ?_]
      · rw [ih1]
      · rw [hhead d rfl]
        simp

theorem keepWordWs_eq_self {l : List Char}
    (h : ∀ c ∈ l, (isWordC c || isWsC c) = true) : keepWordWs l = l :=
  List.filter_eq_self.mpr h

theorem mem_uscToSpace {c : Char} {l : List Char} (h : c ∈ uscToSpace l) :
    (c ∈ l ∧ c ≠ '_') ∨ c = ' ' := by
  obtain ⟨d, hd, heq⟩ := List.mem_map.mp h
  by_cases hdu : d = '_'
  · rw [hdu] at heq
    exact Or.inr (by simpa using heq.symm)
  · have : c = d := by
      rw [← heq]
      simp [hdu]
    rw [this]
    exact Or.inl ⟨hd, hdu⟩

theorem uscToSpace_eq_self {l : List Char} (h : ∀ c ∈ l, c ≠ '_') :
    uscToSpace l = l := by
  unfold uscToSpace
  have : ∀ c ∈ l, (if c == '_' then ' ' else c) = c := by
    intro c hc
    simp [h c hc]
  have := List.map_congr_left this
  simpa using this

theorem mem_cleanupChars {c : Char} {l : List Char} (h : c ∈ cleanupChars l) :
    cleanChar c := by
  unfold cleanupChars collapseWs at h
  split at h
  · exact absurd h (List.not_mem_nil c)
  · have h1 := mem_stripChars h
    rcases mem_collapseWsAux h1 with h2 | rfl
    case inr => exact Or.inr rfl
    rcases mem_uscToSpace h2 with ⟨h3, hnu⟩ | rfl
    case inr => exact Or.inr rfl
    obtain ⟨h5, hwordws⟩ := List.mem_filter.mp h3
    by_cases hws : isWsC c = true
    · exact Or.inr (ws_mem_collapseWsAux h5 hws)
    · have hword : isWordC c = true := by
        rcases (by simpa using hwordws : isWordC c = true ∨ isWsC c = true) with hw | hw
        · exact hw
        · exact absurd hw hws
      rcases mem_collapseWsAux h5 with h6 | rfl
      · exact Or.inl ⟨hword, hnu, mem_lowerChars_fix h6⟩
      · exact Or.inr rfl

theorem noWsPair_symm {a b : Char} (h : noWsPair a b) : noWsPair b a :=
  fun ⟨x, y⟩ => h ⟨y, x⟩

theorem chain'_stripChars {m : List Char} (h : List.Chain' noWsPair m) :
    List.Chain' noWsPair (stripChars m) := by
  unfold stripChars
  have c1 : List.Chain' noWsPair (m.dropWhile isWsC) :=
    h.suffix (List.dropWhile_suffix isWsC)
  have c2 : List.Chain' noWsPair (m.dropWhile isWsC).reverse :=
    List.chain'_reverse.mpr (c1.imp fun _ _ hab => noWsPair_symm hab)
  have c3 : List.Chain' noWsPair ((m.dropWhile isWsC).reverse.dropWhile isWsC) :=
    c2.suffix (List.dropWhile_suffix isWsC)
  exact List.chain'_reverse.mpr (c3.imp fun _ _ hab => noWsPair_symm hab)

theorem chain'_cleanupChars (l : List Char) :
    List.Chain' noWsPair (cleanupChars l) := by
  unfold cleanupChars collapseWs
  split
  · simp
  · exact chain'_stripChars (chain'_collapseWsAux _ false)

theorem head?_cleanupChars {l : List Char} {c : Char}
    (h : (cleanupChars l).head? = some c) : isWsC c = false := by
  unfold cleanupChars at h
  split at h
  · exact absurd h (by simp)
  · exact stripChars_head? h

theorem getLast?_cleanupChars {l : List Char} {c : Char}
    (h : (cleanupChars l).getLast? = some c) : isWsC c = false := by
  unfold cleanupChars at h
  split at h
  · exact absurd h (by simp)
  · exact stripChars_getLast? h

theorem cleanup_fixpoint {G : List Char} (hne : G ≠ [])
    (s_strip : stripChars G = G) (s_lower : lowerChars G = G)
    (s_collapse : collapseWs G = G) (s_keep : keepWordWs G = G)
    (s_usc : uscToSpace G = G) : cleanupChars G = G := by
  unfold cleanupChars
  rw [if_neg hne, s_strip, s_lower, s_collapse, s_keep, s_usc, s_collapse, s_strip]

/-- `_cleanup_basic` is idempotent at the character-list level. -/
theorem cleanupChars_idem (l : List Char) :
    cleanupChars (cleanupChars l) = cleanupChars l := by
  by_cases hG : cleanupChars l = []
  · rw [hG]
    rfl
  have hmem : ∀ c ∈ cleanupChars l, cleanChar c := fun _ hc => mem_cleanupChars hc
  have hch := chain'_cleanupChars l
  refine cleanup_fixpoint hG ?_ ?_ ?_ ?_ ?_
  · exact stripChars_eq_self (fun _ hc => head?_cleanupChars hc)
      (fun _ hc => getLast?_cleanupChars hc)
  · refine lowerChars_eq_self ?_
    intro c hc
    rcases hmem c hc with ⟨-, -, h3⟩ | rfl
    · exact h3
    · decide
  · unfold collapseWs
    refine (collapseWsAux_eq_self ?_ hch).1
    intro c hc hw
    rcases hmem c hc with ⟨hword, -, -⟩ | rfl
    · rw [word_not_ws hword] at hw
      exact absurd hw (by simp)
    · rfl
  · refine keepWordWs_eq_self ?_
    intro c hc
    rcases hmem c hc with ⟨hword, -, -⟩ | rfl
    · simp [hword]
    · decide
  · refine uscToSpace_eq_self ?_
    intro c hc
    rcases hmem c hc with ⟨-, hnu, -⟩ | rfl
    · exact hnu
    · decide

/-- `_cleanup_basic` is idempotent. -/
theorem cleanupBasic_idem (s : String) :
    cleanupBasic (cleanupBasic s) = cleanupBasic s := by
  unfold cleanupBasic
  have : ((cleanupChars s.toList).asString).toList = cleanupChars s.toList := rfl
  rw [this, cleanupChars_idem]

theorem synLookup_city_cases (k : String) :
    synLookup CITY_SYNONYMS k = k ∨ synLookup CITY_SYNONYMS k = "bengaluru" := by
  unfold synLookup
  cases hfind : CITY_SYNONYMS.find? (fun p => p.1 == k) with
  | none => exact Or.inl rfl
  | some p =>
    have hp : p ∈ CITY_SYNONYMS := List.mem_of_find?_eq_some hfind
    have : p = ("bangalore", "bengaluru") ∨ p = ("blore", "bengaluru") := by
      simpa [CITY_SYNONYMS] using hp
    rcases this with rfl | rfl <;> exact Or.inr rfl

theorem synLookup_area_cases (k : String) :
    synLookup AREA_SYNONYMS k = k ∨ synLookup AREA_SYNONYMS k = "koramangala" := by
  unfold synLookup
  cases hfind : AREA_SYNONYMS.find? (fun p => p.1 == k) with
  | none => exact Or.inl rfl
  | some p =>
    have hp : p ∈ AREA_SYNONYMS := List.mem_of_find?_eq_some hfind
    have : p = ("kormangala", "koramangala") := by
      simpa [AREA_SYNONYMS] using hp
    rcases this with rfl
    exact Or.inr rfl

theorem normalize_city_some (x : String) :
    normalize_city (some x) =
      if x = "" then "" else synLookup CITY_SYNONYMS (cleanupBasic x) := rfl

theorem normalize_area_some (x : String) :
    normalize_area (some x) =
      if x = "" then "" else synLookup AREA_SYNONYMS (cleanupBasic x) := rfl

theorem normalize_city_idem (x : String) :
    normalize_city (some (normalize_city (some x))) = normalize_city (some x) := by
  by_cases hx : x = ""
  · subst hx
    rfl
  rcases synLookup_city_cases (cleanupBasic x) with hcase | hcase
  · have hveq : normalize_city (some x) = cleanupBasic x := by
      rw [normalize_city_some, if_neg hx]
      exact hcase
    by_cases hv0 : normalize_city (some x) = ""
    · rw [hv0]
      rfl
    · rw [normalize_city_some (normalize_city (some x)), if_neg hv0, hveq,
        cleanupBasic_idem]
      exact hcase
  · have hveq : normalize_city (some x) = "bengaluru" := by
      rw [normalize_city_some, if_neg hx]
      exact hcase
    rw [hveq]
    decide

theorem normalize_area_idem (x : String) :
    normalize_area (some (normalize_area (some x))) = normalize_area (some x) := by
  by_cases hx : x = ""
  · subst hx
    rfl
  rcases synLookup_area_cases (cleanupBasic x) with hcase | hcase
  · have hveq : normalize_area (some x) = cleanupBasic x := by
      rw [normalize_area_some, if_neg hx]
      exact hcase
    by_cases hv0 : normalize_area (some x) = ""
    · rw [hv0]
      rfl
    · rw [normalize_area_some (normalize_area (some x)), if_neg hv0, hveq,
        cleanupBasic_idem]
      exact hcase
  · have hveq : normalize_area (some x) = "koramangala" := by
      rw [normalize_area_some, if_neg hx]
      exact hcase
    rw [hveq]
    decide

/-- **C10** (confirmed). Each normalization (city, area, amenity) is
idempotent: applying it twice gives the same result as applying it
once, for every input string. -/
theorem normalization_idempotent (x : String) :
    normalize_city (some (normalize_city (some x))) = normalize_city (some x) ∧
    normalize_area (some (normalize_area (some x))) = normalize_area (some x) ∧
    normalize_amenity (normalize_amenity x) = normalize_amenity x :=
  ⟨normalize_city_idem x, normalize_area_idem x, cleanupBasic_idem x⟩

/-- Synonym resolution sanity check: `Bangalore` and `Bengaluru`
normalize to the same canonical city. -/
theorem synonym_resolution :
    normalize_city (some "Bangalore") = normalize_city (some "Bengaluru") := by
  decide

/-- Normalization sanity check on a representative messy input. -/
theorem cleanup_sample : cleanupBasic "  He_llo,,  WORLD!  " = "he llo world" := by
  decide
